import Mathlib

/-!
Verification development for the source-acquisition core of solbuild
(`src/builder/source/simple.go`).

The Go code is shallowly embedded: the filesystem is an explicit finite map
from paths (component lists) to entries, network transfers are driven by an
environment describing what each remote endpoint returns, and every network
interaction is recorded in an event trace.  The cryptographic digests
(`crypto/sha256`, `crypto/sha1`) and the URL parser (`net/url`) are external
Go libraries, so the development is parameterized over them: a digest is an
arbitrary function from file contents to hex strings, and `NewSimple` takes
the parsing function as an argument.
-/

namespace Solbuild

/-- A filesystem path, as its list of components. -/
abbrev Path := List String

/-- A filesystem entry: a regular file with its byte content, a directory,
or a symbolic link holding its (possibly relative) target string. -/
inductive FSEntry where
  | file (content : List Nat)
  | dir
  | symlink (target : String)
  deriving DecidableEq

/-- The filesystem: an association list from paths to entries.  The first
binding for a path is the current one. -/
abbrev FS := List (Path × FSEntry)

/-- Look up the current entry at a path. -/
def FS.find : FS → Path → Option FSEntry
  | [], _ => none
  | (k, e) :: t, p => if p = k then some e else FS.find t p

/-- Remove every binding for a path. -/
def fsErase : FS → Path → FS
  | [], _ => []
  | (k, e) :: t, p => if k = p then fsErase t p else (k, e) :: fsErase t p

/-- Set the entry at a path, replacing any previous binding. -/
def fsSet (fs : FS) (p : Path) (e : FSEntry) : FS :=
  (p, e) :: fsErase fs p

/-- Modelled from the spec: the `PathExists` helper (defined outside this
file's source) is a pure filesystem existence check that never touches the
network. -/
def pathExists (fs : FS) (p : Path) : Bool :=
  (FS.find fs p).isSome

/-- One observable network interaction performed by a transfer backend. -/
inductive Ev where
  | curlPerform (uri : String)
  | ftpDial (hostAddr : String)
  | ftpLogin (username password : String)
  | ftpList (path : String)
  | ftpRetr (path : String)
  deriving DecidableEq

/-- The world a fetch operates on: the filesystem plus the chronological
trace of network interactions. -/
structure World where
  fs : FS
  events : List Ev
  deriving DecidableEq

/-- Userinfo of a URL: `net/url`'s `Userinfo` restricted to the fields the
code reads (`Username()`, and `Password()` with its present-flag). -/
structure Userinfo where
  username : String
  password : Option String
  deriving DecidableEq

/-- A parsed URL: `net/url`'s `URL` restricted to the fields the code reads
(`Scheme`, `Host`, `User`, `Path`). -/
structure URL where
  scheme : String
  host : String
  user : Option Userinfo
  path : String
  deriving DecidableEq

/-- A SimpleSource is a tarball or other source for a package
(struct `SimpleSource`). -/
structure SimpleSource where
  URI : String
  File : String
  legacy : Bool
  validator : String
  url : URL
  deriving DecidableEq

/-- Modelled from the spec: the content root `<root>` (constant `SourceDir`,
defined outside this file's source). -/
def SourceDir : Path := ["root"]

/-- Modelled from the spec: the staging directory (constant
`SourceStagingDir`, defined outside this file's source). -/
def SourceStagingDir : Path := ["staging"]

/-- Go's `filepath.Base` (Unix rules): `"."` for the empty path, trailing
slashes stripped, everything up to the final slash dropped, `"/"` when the
path consists solely of slashes. -/
def filepathBase (p : String) : String :=
  if p = "" then "."
  else
    let r := p.toList.reverse.dropWhile (fun c => c = '/')
    let comp := r.takeWhile (fun c => c ≠ '/')
    if comp = [] then "/" else String.mk comp.reverse

/-- NewSimple will create a new source instance.  `net/url.Parse` is an
external library call, so the parsing function is a parameter. -/
def NewSimple (parseURL : String → Except String URL) (uri validator : String)
    (legacy : Bool) : Except String SimpleSource :=
  match parseURL uri with
  | Except.error e => Except.error e
  | Except.ok uriObj =>
      Except.ok { URI := uri, File := filepathBase uriObj.path, legacy := legacy,
                  validator := validator, url := uriObj }

/-- GetIdentifier will return the URI associated with this source. -/
def GetIdentifier (s : SimpleSource) : String := s.URI

/-- GetPath gets the path on the filesystem of the source:
`filepath.Join(SourceDir, hash, s.File)`. -/
def GetPath (s : SimpleSource) (hash : String) : Path :=
  SourceDir ++ [hash, s.File]

/-- The bind-mount pair handed to the build-execution collaborator
(struct `BindConfiguration`, declared outside this file's source). -/
structure BindConfiguration where
  BindSource : Path
  BindTarget : Path
  deriving DecidableEq

/-- GetBindConfiguration will return the pair for binding our tarballs. -/
def GetBindConfiguration (s : SimpleSource) (rootfs : Path) : BindConfiguration :=
  { BindSource := GetPath s s.validator, BindTarget := rootfs ++ [s.File] }

/-- GetSHA1Sum will return the sha1sum for the given path: read the whole
file, digest it.  `c1` is the (external) SHA-1 hex digest function. -/
def GetSHA1Sum (c1 : List Nat → String) (fs : FS) (path : Path) :
    Except String String :=
  match FS.find fs path with
  | some (FSEntry.file b) => Except.ok (c1 b)
  | _ => Except.error "read failure"

/-- GetSHA256Sum will return the sha256sum for the given path: read the
whole file, digest it.  `c256` is the (external) SHA-256 hex digest
function. -/
def GetSHA256Sum (c256 : List Nat → String) (fs : FS) (path : Path) :
    Except String String :=
  match FS.find fs path with
  | some (FSEntry.file b) => Except.ok (c256 b)
  | _ => Except.error "read failure"

/-- IsFetched will determine if the source is already present. -/
def IsFetched (s : SimpleSource) (fs : FS) : Bool :=
  pathExists fs (GetPath s s.validator)

/-- The two transfer backends. -/
inductive Backend where
  | curl
  | ftp
  deriving DecidableEq

/-- The scheme dispatch of `download`: the `switch s.url.Scheme` statement.
`"ftp"` routes to the FTP backend, every other scheme falls to the default
(curl) branch. -/
def selectBackend (scheme : String) : Backend :=
  if scheme = "ftp" then Backend.ftp else Backend.curl

/-- What one curl transfer of a URI does: deliver the full body, or fail
leaving whatever bytes (possibly none) were streamed before the failure. -/
inductive CurlOutcome where
  | ok (bytes : List Nat)
  | fail (leftover : List Nat)
  deriving DecidableEq

/-- The remote FTP side: whether dialing a host address succeeds, whether a
login is accepted, what `List` returns (entry sizes) and what `Retr`
returns (file bytes). -/
structure FTPServer where
  dialOk : String → Bool
  loginOk : String → String → Bool
  listResult : String → Except String (List Nat)
  retrResult : String → Except String (List Nat)

/-- The network environment a fetch runs against. -/
structure FetchEnv where
  curlOutcome : String → CurlOutcome
  ftp : FTPServer

/-- The host-address fixup of `downloadFTP`: append `":21"` when the host
string contains no colon (`strings.Contains(hostAddr, ":")`). -/
def hostWithPort (host : String) : String :=
  if host.toList.contains ':' then host else host ++ ":21"

/-- The credential extraction of `downloadFTP`: `anonymous`/`anonymous`
when the URL carries no userinfo; otherwise the given username, with the
empty password when none was set. -/
def ftpCredentials (u : Option Userinfo) : String × String :=
  match u with
  | none => ("anonymous", "anonymous")
  | some ui =>
      (ui.username, match ui.password with
                    | some pwd => pwd
                    | none => "")

/-- Stand-in message for a failed curl `Perform`. -/
def curlError : String := "curl: transfer failed"

/-- Stand-in message for a failed FTP dial. -/
def ftpDialFailed : String := "ftp: dial failed"

/-- Stand-in message for a rejected FTP login. -/
def ftpLoginFailed : String := "ftp: login failed"

/-- The `AmbiguousRemoteFile` message:
`fmt.Errorf("FTP expected 1 file, found %d files", len(entries))`. -/
def ambiguousRemoteFile (n : Nat) : String :=
  "FTP expected 1 file, found " ++ toString n ++ " files"

/-- The `os.Symlink` failure when the link path already exists (`EEXIST`,
a `LinkError` wrapping "file exists"). -/
def symlinkExists : String := "symlink: file exists"

/-- downloadCurl utilises CURL to do all downloads: `os.Create` the
destination (truncating), then `Perform`, the write callback streaming the
received bytes into the destination file. -/
def downloadCurl (env : FetchEnv) (s : SimpleSource) (destination : Path)
    (w : World) : Except String Unit × World :=
  let created := fsSet w.fs destination (FSEntry.file [])
  match env.curlOutcome s.URI with
  | CurlOutcome.ok b =>
      (Except.ok (), ⟨fsSet created destination (FSEntry.file b),
                      w.events ++ [Ev.curlPerform s.URI]⟩)
  | CurlOutcome.fail lo =>
      (Except.error curlError, ⟨fsSet created destination (FSEntry.file lo),
                                 w.events ++ [Ev.curlPerform s.URI]⟩)

/-- downloadFTP will fetch a file over ftp: fix the port up, dial, log in
with the extracted credentials, `List` the path, insist on exactly one
entry, `Retr` the body and only then create and fill the destination
file. -/
def downloadFTP (env : FetchEnv) (s : SimpleSource) (destination : Path)
    (w : World) : Except String Unit × World :=
  if env.ftp.dialOk (hostWithPort s.url.host) then
    if env.ftp.loginOk (ftpCredentials s.url.user).1 (ftpCredentials s.url.user).2 then
      match env.ftp.listResult s.url.path with
      | Except.error e =>
          (Except.error e,
           ⟨w.fs, w.events ++ [Ev.ftpDial (hostWithPort s.url.host),
                               Ev.ftpLogin (ftpCredentials s.url.user).1 (ftpCredentials s.url.user).2,
                               Ev.ftpList s.url.path]⟩)
      | Except.ok entries =>
          if entries.length ≠ 1 then
            (Except.error (ambiguousRemoteFile entries.length),
             ⟨w.fs, w.events ++ [Ev.ftpDial (hostWithPort s.url.host),
                                 Ev.ftpLogin (ftpCredentials s.url.user).1 (ftpCredentials s.url.user).2,
                                 Ev.ftpList s.url.path]⟩)
          else
            match env.ftp.retrResult s.url.path with
            | Except.error e =>
                (Except.error e,
                 ⟨w.fs, w.events ++ [Ev.ftpDial (hostWithPort s.url.host),
                                     Ev.ftpLogin (ftpCredentials s.url.user).1 (ftpCredentials s.url.user).2,
                                     Ev.ftpList s.url.path, Ev.ftpRetr s.url.path]⟩)
            | Except.ok b =>
                (Except.ok (),
                 ⟨fsSet w.fs destination (FSEntry.file b),
                  w.events ++ [Ev.ftpDial (hostWithPort s.url.host),
                               Ev.ftpLogin (ftpCredentials s.url.user).1 (ftpCredentials s.url.user).2,
                               Ev.ftpList s.url.path, Ev.ftpRetr s.url.path]⟩)
    else
      (Except.error ftpLoginFailed,
       ⟨w.fs, w.events ++ [Ev.ftpDial (hostWithPort s.url.host),
                           Ev.ftpLogin (ftpCredentials s.url.user).1 (ftpCredentials s.url.user).2]⟩)
  else
    (Except.error ftpDialFailed,
     ⟨w.fs, w.events ++ [Ev.ftpDial (hostWithPort s.url.host)]⟩)

/-- download will proxy the download to the correct scheme handler. -/
def download (env : FetchEnv) (s : SimpleSource) (destination : Path)
    (w : World) : Except String Unit × World :=
  match selectBackend s.url.scheme with
  | Backend.ftp => downloadFTP env s destination w
  | Backend.curl => downloadCurl env s destination w

/-- The staging target of a fetch:
`filepath.Join(SourceStagingDir, s.File)`. -/
def stagedPath (s : SimpleSource) : Path :=
  SourceStagingDir ++ [s.File]

/-- The staging-directory check of `Fetch`: create `SourceStagingDir` when
it does not exist yet (`os.MkdirAll`, modelled as always succeeding). -/
def stagingEnsured (fs : FS) : FS :=
  if pathExists fs SourceStagingDir then fs else fsSet fs SourceStagingDir FSEntry.dir

/-- The canonical directory of a hash: `filepath.Join(SourceDir, hash)`. -/
def canonDir (hash : String) : Path :=
  SourceDir ++ [hash]

/-- The final step of `Fetch` (lines 291-302 of `simple.go`): for a legacy
source, take the sha1sum of the committed file and symlink the SHA-1 name
to the SHA-256 directory name — `os.Symlink(hash, tgtLink)` stores the
bare `hash` string as a relative link target and fails when the link path
already exists. -/
def fetchAlias (c1 : List Nat → String) (s : SimpleSource) (hash : String)
    (fs3 : FS) (evs : List Ev) : Except String Unit × World :=
  if s.legacy then
    match GetSHA1Sum c1 fs3 (GetPath s hash) with
    | Except.error e => (Except.error e, ⟨fs3, evs⟩)
    | Except.ok sha =>
      if pathExists fs3 (canonDir sha) then
        (Except.error symlinkExists, ⟨fs3, evs⟩)
      else
        (Except.ok (), ⟨fsSet fs3 (canonDir sha) (FSEntry.symlink hash), evs⟩)
  else
    (Except.ok (), ⟨fs3, evs⟩)

/-- The commit step of `Fetch` (lines 274-289 of `simple.go`): hash the
staged file, create the hash-named target directory when absent
(`os.MkdirAll`, modelled as always succeeding), and `os.Rename` the staged
file into it (failing when the staged file is missing, overwriting any
file already at the destination), then hand over to the aliasing step. -/
def fetchCommit (c256 c1 : List Nat → String) (s : SimpleSource) (w1 : World) :
    Except String Unit × World :=
  match GetSHA256Sum c256 w1.fs (stagedPath s) with
  | Except.error e => (Except.error e, w1)
  | Except.ok hash =>
    let fs2 := if pathExists w1.fs (canonDir hash) then w1.fs
               else fsSet w1.fs (canonDir hash) FSEntry.dir
    match FS.find fs2 (stagedPath s) with
    | none => (Except.error "rename: no such file", ⟨fs2, w1.events⟩)
    | some entry =>
      fetchAlias c1 s hash (fsSet (fsErase fs2 (stagedPath s)) (GetPath s hash) entry) w1.events

/-- Fetch will download the given source and cache it locally: ensure
staging, download to the staged path, then commit and (for legacy
sources) alias.  `c256` and `c1` are the external digest functions. -/
def Fetch (c256 c1 : List Nat → String) (env : FetchEnv) (s : SimpleSource)
    (w : World) : Except String Unit × World :=
  match download env s (stagedPath s) ⟨stagingEnsured w.fs, w.events⟩ with
  | (Except.error e, w1) => (Except.error e, w1)
  | (Except.ok _, w1) => fetchCommit c256 c1 s w1

/-- Resolution of a legacy alias link: the symlink at `<root>/<weak>`
stores the bare hash string as a relative target, which the filesystem
resolves against the link's directory, i.e. to `<root>/<target>`. -/
def resolveAlias (fs : FS) (p : Path) : Option Path :=
  match FS.find fs p with
  | some (FSEntry.symlink t) => some (SourceDir ++ [t])
  | _ => none

/-- Follows the spec's words: "the final path segment of the URI's path
component" — the maximal slash-free suffix of the path. -/
def finalSeg (p : String) : String :=
  String.mk ((p.toList.reverse.takeWhile (fun c => c ≠ '/')).reverse)

/-- Follows the spec's words: whether the host part of a URI authority
specifies a port — for a bracketed (IPv6) host, a `":port"` suffix after
the closing bracket; otherwise the presence of a colon. -/
def hostSpecifiesPort (h : String) : Bool :=
  if h.toList.head? = some '[' then
    decide (((h.toList.reverse.takeWhile (fun c => c ≠ ']')).reverse).head? = some ':')
  else h.toList.contains ':'

/-! ### Basic filesystem lemmas -/

theorem find_fsErase (fs : FS) (p q : Path) :
    FS.find (fsErase fs p) q = if q = p then none else FS.find fs q := by
  induction fs with
  | nil => simp [fsErase, FS.find]
  | cons kv t ih =>
    obtain ⟨k, e⟩ := kv
    by_cases hkp : k = p
    · subst hkp
      simp only [fsErase, if_pos rfl, if_true, FS.find]
      rw [ih]
      by_cases hqk : q = k <;> simp [hqk]
    · simp only [fsErase, if_neg hkp, FS.find, ih]
      by_cases hqk : q = k <;> by_cases hqp : q = p <;> simp_all

theorem find_fsSet (fs : FS) (p : Path) (e : FSEntry) (q : Path) :
    FS.find (fsSet fs p e) q = if q = p then some e else FS.find fs q := by
  simp only [fsSet, FS.find, find_fsErase]
  by_cases hqp : q = p <;> simp [hqp]

theorem find_eq_none_of_not_pathExists (fs : FS) (p : Path)
    (h : ¬ pathExists fs p = true) : FS.find fs p = none := by
  unfold pathExists at h
  cases hf : FS.find fs p with
  | none => rfl
  | some e => rw [hf] at h; simp at h

theorem find_stagingEnsured_ne (fs : FS) (q : Path) (h : q ≠ SourceStagingDir) :
    FS.find (stagingEnsured fs) q = FS.find fs q := by
  unfold stagingEnsured
  split
  · rfl
  · rw [find_fsSet, if_neg h]

/-! ### Path disequalities: the five locations a fetch touches are
pairwise distinct whenever the hashes involved differ -/

theorem stagedPath_ne_stg (s : SimpleSource) : stagedPath s ≠ SourceStagingDir := by
  simp [stagedPath, SourceStagingDir]

theorem stagedPath_ne_canonDir (s : SimpleSource) (h : String) :
    stagedPath s ≠ canonDir h := by
  simp [stagedPath, canonDir, SourceStagingDir, SourceDir]

theorem stagedPath_ne_getPath (s s' : SimpleSource) (h : String) :
    stagedPath s ≠ GetPath s' h := by
  simp [stagedPath, GetPath, SourceStagingDir, SourceDir]

theorem canonDir_ne_stg (h : String) : canonDir h ≠ SourceStagingDir := by
  simp [canonDir, SourceDir, SourceStagingDir]

theorem getPath_ne_stg (s : SimpleSource) (h : String) :
    GetPath s h ≠ SourceStagingDir := by
  simp [GetPath, SourceDir, SourceStagingDir]

theorem getPath_ne_canonDir (s : SimpleSource) (a b : String) :
    GetPath s a ≠ canonDir b := by
  simp [GetPath, canonDir, SourceDir]

theorem canonDir_inj (a b : String) : canonDir a = canonDir b ↔ a = b := by
  simp [canonDir, SourceDir]

theorem getPath_inj (s : SimpleSource) (a b : String) :
    GetPath s a = GetPath s b ↔ a = b := by
  simp [GetPath, SourceDir]

/-! ### Characterization of `download`

Every run of `download` logs at least one network event and ends in one of
four shapes: success with the full body at the destination (curl creates
the destination first, FTP creates it only after `Retr`), failure without
touching the filesystem (all FTP failures), or failure leaving a created,
possibly partially written destination file (curl).  Each shape records
which backend outcome produced it. -/
theorem download_cases (env : FetchEnv) (s : SimpleSource) (dest : Path) (w : World) :
    (∃ b evs, evs ≠ [] ∧ (s.url.scheme = "ftp" ∨ env.curlOutcome s.URI = CurlOutcome.ok b) ∧
      download env s dest w =
        (Except.ok (), ⟨fsSet (fsSet w.fs dest (FSEntry.file [])) dest (FSEntry.file b),
                        w.events ++ evs⟩)) ∨
    (∃ b evs, evs ≠ [] ∧ (s.url.scheme = "ftp" ∨ env.curlOutcome s.URI = CurlOutcome.ok b) ∧
      download env s dest w =
        (Except.ok (), ⟨fsSet w.fs dest (FSEntry.file b), w.events ++ evs⟩)) ∨
    (∃ e evs, evs ≠ [] ∧ (s.url.scheme = "ftp" ∨ ∃ lo, env.curlOutcome s.URI = CurlOutcome.fail lo) ∧
      download env s dest w = (Except.error e, ⟨w.fs, w.events ++ evs⟩)) ∨
    (∃ e b evs, evs ≠ [] ∧ (s.url.scheme = "ftp" ∨ ∃ lo, env.curlOutcome s.URI = CurlOutcome.fail lo) ∧
      download env s dest w =
        (Except.error e, ⟨fsSet (fsSet w.fs dest (FSEntry.file [])) dest (FSEntry.file b),
                          w.events ++ evs⟩)) := by
  by_cases hs : s.url.scheme = "ftp"
  · simp only [download, selectBackend, if_pos hs]
    cases hdial : env.ftp.dialOk (hostWithPort s.url.host) with
    | false =>
      refine Or.inr (Or.inr (Or.inl
        ⟨ftpDialFailed, [Ev.ftpDial (hostWithPort s.url.host)], by simp, Or.inl hs, ?_⟩))
      simp [downloadFTP, hdial]
    | true =>
      cases hlog : env.ftp.loginOk (ftpCredentials s.url.user).1 (ftpCredentials s.url.user).2 with
      | false =>
        refine Or.inr (Or.inr (Or.inl
          ⟨ftpLoginFailed,
           [Ev.ftpDial (hostWithPort s.url.host),
            Ev.ftpLogin (ftpCredentials s.url.user).1 (ftpCredentials s.url.user).2],
           by simp, Or.inl hs, ?_⟩))
        simp [downloadFTP, hdial, hlog]
      | true =>
        cases hlist : env.ftp.listResult s.url.path with
        | error e =>
          refine Or.inr (Or.inr (Or.inl
            ⟨e,
             [Ev.ftpDial (hostWithPort s.url.host),
              Ev.ftpLogin (ftpCredentials s.url.user).1 (ftpCredentials s.url.user).2,
              Ev.ftpList s.url.path],
             by simp, Or.inl hs, ?_⟩))
          simp [downloadFTP, hdial, hlog, hlist]
        | ok entries =>
          by_cases hn : entries.length = 1
          · cases hretr : env.ftp.retrResult s.url.path with
            | error e =>
              refine Or.inr (Or.inr (Or.inl
                ⟨e,
                 [Ev.ftpDial (hostWithPort s.url.host),
                  Ev.ftpLogin (ftpCredentials s.url.user).1 (ftpCredentials s.url.user).2,
                  Ev.ftpList s.url.path, Ev.ftpRetr s.url.path],
                 by simp, Or.inl hs, ?_⟩))
              simp [downloadFTP, hdial, hlog, hlist, hn, hretr]
            | ok b =>
              refine Or.inr (Or.inl
                ⟨b,
                 [Ev.ftpDial (hostWithPort s.url.host),
                  Ev.ftpLogin (ftpCredentials s.url.user).1 (ftpCredentials s.url.user).2,
                  Ev.ftpList s.url.path, Ev.ftpRetr s.url.path],
                 by simp, Or.inl hs, ?_⟩)
              simp [downloadFTP, hdial, hlog, hlist, hn, hretr]
          · refine Or.inr (Or.inr (Or.inl
              ⟨ambiguousRemoteFile entries.length,
               [Ev.ftpDial (hostWithPort s.url.host),
                Ev.ftpLogin (ftpCredentials s.url.user).1 (ftpCredentials s.url.user).2,
                Ev.ftpList s.url.path],
               by simp, Or.inl hs, ?_⟩))
            simp [downloadFTP, hdial, hlog, hlist, hn]
  · simp only [download, selectBackend, if_neg hs]
    cases hc : env.curlOutcome s.URI with
    | ok b =>
      refine Or.inl ⟨b, [Ev.curlPerform s.URI], by simp, Or.inr rfl, ?_⟩
      simp [downloadCurl, hc]
    | fail lo =>
      refine Or.inr (Or.inr (Or.inr
        ⟨curlError, lo, [Ev.curlPerform s.URI], by simp, Or.inr ⟨lo, rfl⟩, ?_⟩))
      simp [downloadCurl, hc]

/-! ### Characterization of `Fetch` -/

/-- The outcome of one `Fetch` run: some network traffic always happens,
and either (a) it fails before the commit, touching nothing but the
staging directory and the staged file — which is created or left alone,
never deleted — or (b) a canonical entry `root/<c256 b>/<File>` holding
exactly the downloaded bytes `b` is committed, everything away from the
five touched locations is untouched, and the run either succeeds (with
the legacy alias link in place when the source is legacy) or fails at the
aliasing step with the symlink-exists error, leaving any prior entry at
the alias path unchanged. -/
def FetchOutcome (c256 c1 : List Nat → String) (env : FetchEnv) (s : SimpleSource)
    (w : World) : Prop :=
  ∃ evs, evs ≠ [] ∧ (Fetch c256 c1 env s w).2.events = w.events ++ evs ∧
    ((∃ e, (Fetch c256 c1 env s w).1 = Except.error e ∧
        (s.url.scheme = "ftp" ∨ ∃ lo, env.curlOutcome s.URI = CurlOutcome.fail lo) ∧
        (∀ q : Path, q ≠ SourceStagingDir → q ≠ stagedPath s →
           FS.find (Fetch c256 c1 env s w).2.fs q = FS.find w.fs q) ∧
        (FS.find (Fetch c256 c1 env s w).2.fs (stagedPath s) = FS.find w.fs (stagedPath s) ∨
         ∃ bts, FS.find (Fetch c256 c1 env s w).2.fs (stagedPath s) = some (FSEntry.file bts))) ∨
     (∃ b, (s.url.scheme = "ftp" ∨ env.curlOutcome s.URI = CurlOutcome.ok b) ∧
        FS.find (Fetch c256 c1 env s w).2.fs (GetPath s (c256 b)) = some (FSEntry.file b) ∧
        (∀ q : Path, q ≠ SourceStagingDir → q ≠ stagedPath s → q ≠ canonDir (c256 b) →
           q ≠ GetPath s (c256 b) → q ≠ canonDir (c1 b) →
           FS.find (Fetch c256 c1 env s w).2.fs q = FS.find w.fs q) ∧
        (((Fetch c256 c1 env s w).1 = Except.ok () ∧
            (s.legacy = true →
              FS.find (Fetch c256 c1 env s w).2.fs (canonDir (c1 b)) =
                some (FSEntry.symlink (c256 b)) ∧
              (c1 b ≠ c256 b → FS.find w.fs (canonDir (c1 b)) = none))) ∨
         ((Fetch c256 c1 env s w).1 = Except.error symlinkExists ∧ s.legacy = true ∧
            (c1 b ≠ c256 b →
              FS.find (Fetch c256 c1 env s w).2.fs (canonDir (c1 b)) =
                FS.find w.fs (canonDir (c1 b)))))))

theorem fetchCommit_reduce (c256 c1 : List Nat → String) (s : SimpleSource)
    (fs1 : FS) (evs1 : List Ev) (b : List Nat)
    (hstgF : FS.find fs1 (stagedPath s) = some (FSEntry.file b)) :
    fetchCommit c256 c1 s ⟨fs1, evs1⟩ =
      fetchAlias c1 s (c256 b)
        (fsSet (fsErase (if pathExists fs1 (canonDir (c256 b)) then fs1
                         else fsSet fs1 (canonDir (c256 b)) FSEntry.dir) (stagedPath s))
               (GetPath s (c256 b)) (FSEntry.file b)) evs1 := by
  have h256 : GetSHA256Sum c256 fs1 (stagedPath s) = Except.ok (c256 b) := by
    simp [GetSHA256Sum, hstgF]
  have hfind2 : FS.find (if pathExists fs1 (canonDir (c256 b)) then fs1
                         else fsSet fs1 (canonDir (c256 b)) FSEntry.dir) (stagedPath s)
      = some (FSEntry.file b) := by
    split
    · exact hstgF
    · rw [find_fsSet, if_neg (stagedPath_ne_canonDir s _)]; exact hstgF
  unfold fetchCommit
  rw [h256]
  simp only [hfind2]

theorem fetch_ok_aux (c256 c1 : List Nat → String) (env : FetchEnv) (s : SimpleSource)
    (w : World) (b : List Nat) (evs : List Ev) (w1fs : FS)
    (hne : evs ≠ [])
    (hprov : s.url.scheme = "ftp" ∨ env.curlOutcome s.URI = CurlOutcome.ok b)
    (hdl : download env s (stagedPath s) ⟨stagingEnsured w.fs, w.events⟩ =
           (Except.ok (), ⟨w1fs, w.events ++ evs⟩))
    (hfs1 : ∀ q, FS.find w1fs q =
        if q = stagedPath s then some (FSEntry.file b)
        else FS.find (stagingEnsured w.fs) q) :
    FetchOutcome c256 c1 env s w := by
  have hstgF : FS.find w1fs (stagedPath s) = some (FSEntry.file b) := by simp [hfs1]
  have hFetch : Fetch c256 c1 env s w = fetchCommit c256 c1 s ⟨w1fs, w.events ++ evs⟩ := by
    unfold Fetch; rw [hdl]
  have hred := fetchCommit_reduce c256 c1 s w1fs (w.events ++ evs) b hstgF
  have hfs2 : ∀ q, q ≠ canonDir (c256 b) →
      FS.find (if pathExists w1fs (canonDir (c256 b)) then w1fs
               else fsSet w1fs (canonDir (c256 b)) FSEntry.dir) q = FS.find w1fs q := by
    intro q hq
    split
    · rfl
    · rw [find_fsSet, if_neg hq]
  have hfs3 : ∀ q, FS.find (fsSet (fsErase (if pathExists w1fs (canonDir (c256 b)) then w1fs
                         else fsSet w1fs (canonDir (c256 b)) FSEntry.dir) (stagedPath s))
               (GetPath s (c256 b)) (FSEntry.file b)) q =
      if q = GetPath s (c256 b) then some (FSEntry.file b)
      else if q = stagedPath s then none
      else FS.find (if pathExists w1fs (canonDir (c256 b)) then w1fs
                    else fsSet w1fs (canonDir (c256 b)) FSEntry.dir) q := by
    intro q
    rw [find_fsSet, find_fsErase]
  have hcanon : FS.find (fsSet (fsErase (if pathExists w1fs (canonDir (c256 b)) then w1fs
                         else fsSet w1fs (canonDir (c256 b)) FSEntry.dir) (stagedPath s))
               (GetPath s (c256 b)) (FSEntry.file b)) (GetPath s (c256 b)) =
      some (FSEntry.file b) := by
    rw [hfs3, if_pos rfl]
  have huntouched : ∀ q, q ≠ SourceStagingDir → q ≠ stagedPath s → q ≠ canonDir (c256 b) →
      q ≠ GetPath s (c256 b) →
      FS.find (fsSet (fsErase (if pathExists w1fs (canonDir (c256 b)) then w1fs
                         else fsSet w1fs (canonDir (c256 b)) FSEntry.dir) (stagedPath s))
               (GetPath s (c256 b)) (FSEntry.file b)) q = FS.find w.fs q := by
    intro q h1 h2 h3 h4
    rw [hfs3, if_neg h4, if_neg h2, hfs2 q h3, hfs1, if_neg h2,
        find_stagingEnsured_ne _ _ h1]
  by_cases hleg : s.legacy = true
  · have hsha : GetSHA1Sum c1 (fsSet (fsErase (if pathExists w1fs (canonDir (c256 b)) then w1fs
                         else fsSet w1fs (canonDir (c256 b)) FSEntry.dir) (stagedPath s))
               (GetPath s (c256 b)) (FSEntry.file b)) (GetPath s (c256 b)) =
        Except.ok (c1 b) := by
      simp [GetSHA1Sum, hcanon]
    by_cases hlink : pathExists (fsSet (fsErase (if pathExists w1fs (canonDir (c256 b)) then w1fs
                         else fsSet w1fs (canonDir (c256 b)) FSEntry.dir) (stagedPath s))
               (GetPath s (c256 b)) (FSEntry.file b)) (canonDir (c1 b)) = true
    · have hF : Fetch c256 c1 env s w =
          (Except.error symlinkExists,
           ⟨fsSet (fsErase (if pathExists w1fs (canonDir (c256 b)) then w1fs
                         else fsSet w1fs (canonDir (c256 b)) FSEntry.dir) (stagedPath s))
               (GetPath s (c256 b)) (FSEntry.file b), w.events ++ evs⟩) := by
        rw [hFetch, hred]
        unfold fetchAlias
        rw [if_pos hleg, hsha]
        simp only [hlink, if_true]
      refine ⟨evs, hne, by rw [hF], Or.inr ⟨b, hprov, ?_, ?_, Or.inr ⟨by rw [hF], hleg, ?_⟩⟩⟩
      · rw [hF]; exact hcanon
      · intro q h1 h2 h3 h4 _
        rw [hF]; exact huntouched q h1 h2 h3 h4
      · intro hne'
        rw [hF]
        exact huntouched (canonDir (c1 b)) (canonDir_ne_stg _)
          (Ne.symm (stagedPath_ne_canonDir s _)) (by rw [Ne, canonDir_inj]; exact hne')
          (Ne.symm (getPath_ne_canonDir s _ _))
    · have hF : Fetch c256 c1 env s w =
          (Except.ok (),
           ⟨fsSet (fsSet (fsErase (if pathExists w1fs (canonDir (c256 b)) then w1fs
                         else fsSet w1fs (canonDir (c256 b)) FSEntry.dir) (stagedPath s))
               (GetPath s (c256 b)) (FSEntry.file b)) (canonDir (c1 b))
               (FSEntry.symlink (c256 b)), w.events ++ evs⟩) := by
        rw [hFetch, hred]
        unfold fetchAlias
        rw [if_pos hleg, hsha]
        simp only [hlink, if_false, Bool.false_eq_true]
      refine ⟨evs, hne, by rw [hF], Or.inr ⟨b, hprov, ?_, ?_, Or.inl ⟨by rw [hF], ?_⟩⟩⟩
      · rw [hF, find_fsSet, if_neg (getPath_ne_canonDir s _ _)]; exact hcanon
      · intro q h1 h2 h3 h4 h5
        rw [hF, find_fsSet, if_neg h5]; exact huntouched q h1 h2 h3 h4
      · intro _
        constructor
        · rw [hF, find_fsSet, if_pos rfl]
        · intro hne'
          have hnone := find_eq_none_of_not_pathExists _ _ hlink
          have hchain := huntouched (canonDir (c1 b)) (canonDir_ne_stg _)
            (Ne.symm (stagedPath_ne_canonDir s _)) (by rw [Ne, canonDir_inj]; exact hne')
            (Ne.symm (getPath_ne_canonDir s _ _))
          rw [← hchain, hnone]
  · have hF : Fetch c256 c1 env s w =
        (Except.ok (),
         ⟨fsSet (fsErase (if pathExists w1fs (canonDir (c256 b)) then w1fs
                         else fsSet w1fs (canonDir (c256 b)) FSEntry.dir) (stagedPath s))
               (GetPath s (c256 b)) (FSEntry.file b), w.events ++ evs⟩) := by
      rw [hFetch, hred]
      unfold fetchAlias
      rw [if_neg hleg]
    refine ⟨evs, hne, by rw [hF], Or.inr ⟨b, hprov, ?_, ?_, Or.inl ⟨by rw [hF], ?_⟩⟩⟩
    · rw [hF]; exact hcanon
    · intro q h1 h2 h3 h4 _
      rw [hF]; exact huntouched q h1 h2 h3 h4
    · intro hl; exact absurd hl hleg

/-- Full characterization of `Fetch`: see `FetchOutcome`. -/
theorem Fetch_char (c256 c1 : List Nat → String) (env : FetchEnv) (s : SimpleSource)
    (w : World) : FetchOutcome c256 c1 env s w := by
  rcases download_cases env s (stagedPath s) ⟨stagingEnsured w.fs, w.events⟩ with
    ⟨b, evs, hne, hprov, hdl⟩ | ⟨b, evs, hne, hprov, hdl⟩ |
    ⟨e, evs, hne, hprov, hdl⟩ | ⟨e, b, evs, hne, hprov, hdl⟩
  · refine fetch_ok_aux c256 c1 env s w b evs _ hne hprov hdl ?_
    intro q
    rw [find_fsSet]
    by_cases h : q = stagedPath s
    · rw [if_pos h, if_pos h]
    · rw [if_neg h, if_neg h, find_fsSet, if_neg h]
  · refine fetch_ok_aux c256 c1 env s w b evs _ hne hprov hdl ?_
    intro q
    rw [find_fsSet]
  · have hF : Fetch c256 c1 env s w =
        (Except.error e, ⟨stagingEnsured w.fs, w.events ++ evs⟩) := by
      unfold Fetch; rw [hdl]
    refine ⟨evs, hne, by rw [hF], Or.inl ⟨e, by rw [hF], hprov, ?_, Or.inl ?_⟩⟩
    · intro q h1 _
      rw [hF]; exact find_stagingEnsured_ne _ _ h1
    · rw [hF]; exact find_stagingEnsured_ne _ _ (stagedPath_ne_stg s)
  · have hF : Fetch c256 c1 env s w =
        (Except.error e,
         ⟨fsSet (fsSet (stagingEnsured w.fs) (stagedPath s) (FSEntry.file []))
            (stagedPath s) (FSEntry.file b), w.events ++ evs⟩) := by
      unfold Fetch; rw [hdl]
    refine ⟨evs, hne, by rw [hF], Or.inl ⟨e, by rw [hF], hprov, ?_, Or.inr ⟨b, ?_⟩⟩⟩
    · intro q h1 h2
      rw [hF, find_fsSet, if_neg h2, find_fsSet, if_neg h2,
          find_stagingEnsured_ne _ _ h1]
    · rw [hF, find_fsSet, if_pos rfl]

/-! ### Facts about `filepathBase` -/

theorem filepathBase_ne_empty (p : String) : filepathBase p ≠ "" := by
  unfold filepathBase
  by_cases h0 : p = ""
  · rw [if_pos h0]; decide
  · rw [if_neg h0]
    show (if (p.toList.reverse.dropWhile (fun c => c = '/')).takeWhile (fun c => c ≠ '/') = []
          then "/"
          else String.mk (((p.toList.reverse.dropWhile (fun c => c = '/')).takeWhile
            (fun c => c ≠ '/')).reverse)) ≠ ""
    by_cases h2 : (p.toList.reverse.dropWhile (fun c => c = '/')).takeWhile (fun c => c ≠ '/') = []
    · rw [if_pos h2]; decide
    · rw [if_neg h2]
      intro hc
      have hdata : ((p.toList.reverse.dropWhile (fun c => c = '/')).takeWhile
          (fun c => c ≠ '/')).reverse = [] := congrArg String.data hc
      exact h2 (List.reverse_eq_nil_iff.mp hdata)

theorem filepathBase_eq_finalSeg (p : String) (h0 : p ≠ "")
    (hlast : p.toList.reverse.head? ≠ some '/') :
    filepathBase p = finalSeg p := by
  unfold filepathBase finalSeg
  rw [if_neg h0]
  cases hl : p.toList.reverse with
  | nil =>
    exfalso
    exact h0 (String.ext (List.reverse_eq_nil_iff.mp hl))
  | cons c cs =>
    have hc : c ≠ '/' := by
      intro h
      exact hlast (by rw [hl, h]; rfl)
    have hd : List.dropWhile (fun x => decide (x = '/')) (c :: cs) = c :: cs := by
      rw [List.dropWhile_cons]
      simp [hc]
    simp only [hd, List.takeWhile_cons]
    simp [hc]

/-! ### Concrete artifacts for witnesses and counterexamples -/

/-- Demo stand-in for the hex-encoded SHA-256 digest. -/
def dh256 : List Nat → String :=
  fun b => "s" ++ toString (b.foldl (fun a x => a * 100 + x + 1) 0)

/-- Demo stand-in for the hex-encoded SHA-1 digest. -/
def dh1 : List Nat → String :=
  fun b => "w" ++ toString (b.foldl (fun a x => a * 100 + x + 1) 0)

/-- An FTP side that refuses every dial (unused by curl-scheme runs). -/
def demoFTPDead : FTPServer :=
  ⟨fun _ => false, fun _ _ => false, fun _ => Except.error "e", fun _ => Except.error "e"⟩

/-- An environment whose curl transfers all deliver the bytes `[7]`. -/
def demoEnvOk : FetchEnv := ⟨fun _ => CurlOutcome.ok [7], demoFTPDead⟩

/-- A plain https source. -/
def demoSource : SimpleSource :=
  { URI := "https://example.org/pkg/foo-1.2.tar.xz", File := "foo-1.2.tar.xz",
    legacy := false, validator := "v",
    url := ⟨"https", "example.org", none, "/pkg/foo-1.2.tar.xz"⟩ }

/-- The empty world. -/
def demoWorld : World := ⟨[], []⟩

/-- A source whose validator-keyed store entry is already present in
`demoWorldCached`. -/
def demoSourceCached : SimpleSource :=
  { URI := "http://x/f", File := "f", legacy := false, validator := "v",
    url := ⟨"http", "x", none, "/f"⟩ }

/-- A world already holding `root/v/f`: the store entry for
`demoSourceCached`'s validator. -/
def demoWorldCached : World := ⟨[(["root", "v", "f"], FSEntry.file [1])], []⟩

/-! ### C1 -/

/-- C1 counterexample: the content store already holds the entry for the
descriptor's validator hash and file name (`IsFetched` is `true`), yet
`Fetch` contacts the network (it performs the curl transfer), refuting
the claimed no-op. -/
theorem C1_counterexample :
    IsFetched demoSourceCached demoWorldCached.fs = true ∧
    (Fetch dh256 dh1 demoEnvOk demoSourceCached demoWorldCached).2.events =
      [Ev.curlPerform "http://x/f"] :=
  ⟨rfl, rfl⟩

/-- C1 (amended): `Fetch` never consults the content store: even when the
store already holds the entry for the validator hash and file name, every
call performs network I/O (the event trace strictly grows); the exists
check is the separate `IsFetched` query, left to the caller. -/
theorem C1_fetch_always_downloads (c256 c1 : List Nat → String) (env : FetchEnv)
    (s : SimpleSource) (w : World)
    (hcached : IsFetched s w.fs = true) :
    w.events.length < (Fetch c256 c1 env s w).2.events.length := by
  rcases Fetch_char c256 c1 env s w with ⟨evs, hne, hev, _⟩
  rw [hev, List.length_append]
  have : 0 < evs.length := List.length_pos.mpr hne
  omega

/-- C1 witness: the amended theorem applied to the cached demo world. -/
theorem C1_witness :
    IsFetched demoSourceCached demoWorldCached.fs = true ∧
    demoWorldCached.events.length <
      (Fetch dh256 dh1 demoEnvOk demoSourceCached demoWorldCached).2.events.length :=
  ⟨rfl, C1_fetch_always_downloads dh256 dh1 demoEnvOk demoSourceCached demoWorldCached rfl⟩

/-! ### C2 -/

/-- C2: content-addressing correctness: every successful `Fetch` leaves
the committed artifact at `<root>/<h>/<fileName>` where `h` is exactly
the strong (SHA-256) digest of the bytes of the committed file. -/
theorem C2_content_addressing (c256 c1 : List Nat → String) (env : FetchEnv)
    (s : SimpleSource) (w : World)
    (hok : (Fetch c256 c1 env s w).1 = Except.ok ()) :
    ∃ b, FS.find (Fetch c256 c1 env s w).2.fs (GetPath s (c256 b)) =
      some (FSEntry.file b) := by
  rcases Fetch_char c256 c1 env s w with ⟨evs, _, _, hcase⟩
  rcases hcase with ⟨e, herr, _⟩ | ⟨b, _, hcanon, _, _⟩
  · rw [hok] at herr; simp at herr
  · exact ⟨b, hcanon⟩

/-- C2 witness: a concrete successful run commits `[7]` under its demo
digest directory. -/
theorem C2_witness :
    ∃ b, FS.find (Fetch dh256 dh1 demoEnvOk demoSource demoWorld).2.fs
      (GetPath demoSource (dh256 b)) = some (FSEntry.file b) :=
  C2_content_addressing dh256 dh1 demoEnvOk demoSource demoWorld rfl

/-! ### C3 -/

/-- A legacy-format source fetched over http. -/
def demoSourceLegacy : SimpleSource :=
  { URI := "http://x/g", File := "g", legacy := true, validator := "v",
    url := ⟨"http", "x", none, "/g"⟩ }

/-- A world already holding an alias link at `root/<dh1 [7]>` (pointing at
the canonical directory name `dh256 [7]`). -/
def demoWorldAlias : World := ⟨[(["root", "w8"], FSEntry.symlink "s8")], []⟩

/-- C3 counterexample: the aliasing step fails (`os.Symlink`: the link
path already exists), `Fetch` returns that error — yet the canonical
entry for this fetch HAS been committed, refuting "no canonical entry
committed" on failure. -/
theorem C3_counterexample :
    (Fetch dh256 dh1 demoEnvOk demoSourceLegacy demoWorldAlias).1 =
      Except.error symlinkExists ∧
    FS.find (Fetch dh256 dh1 demoEnvOk demoSourceLegacy demoWorldAlias).2.fs
      (GetPath demoSourceLegacy (dh256 [7])) = some (FSEntry.file [7]) :=
  ⟨rfl, rfl⟩

/-- C3 (amended): when `Fetch` fails, either the failure happened before
the commit — in which case nothing outside the staging directory and the
staged file changed, and the staged file was never deleted (it is either
untouched or holds the, possibly partial, download) — or the failure is
the aliasing step's symlink-exists error, in which case the canonical
entry HAS been committed (the staged file having been renamed into it). -/
theorem C3_failure_atomicity (c256 c1 : List Nat → String) (env : FetchEnv)
    (s : SimpleSource) (w : World) (e : String)
    (herr : (Fetch c256 c1 env s w).1 = Except.error e) :
    ((∀ q : Path, q ≠ SourceStagingDir → q ≠ stagedPath s →
        FS.find (Fetch c256 c1 env s w).2.fs q = FS.find w.fs q) ∧
     (FS.find (Fetch c256 c1 env s w).2.fs (stagedPath s) = FS.find w.fs (stagedPath s) ∨
      ∃ bts, FS.find (Fetch c256 c1 env s w).2.fs (stagedPath s) =
        some (FSEntry.file bts))) ∨
    (e = symlinkExists ∧ s.legacy = true ∧
     ∃ b, FS.find (Fetch c256 c1 env s w).2.fs (GetPath s (c256 b)) =
       some (FSEntry.file b)) := by
  rcases Fetch_char c256 c1 env s w with ⟨evs, _, _, hcase⟩
  rcases hcase with ⟨e', _, _, huntouched, hstaged⟩ | ⟨b, _, hcanon, _, hend⟩
  · exact Or.inl ⟨huntouched, hstaged⟩
  · rcases hend with ⟨hok, _⟩ | ⟨herr', hleg, _⟩
    · rw [herr] at hok; simp at hok
    · rw [herr] at herr'
      injection herr' with he
      exact Or.inr ⟨he, hleg, b, hcanon⟩

/-- C3 witness: the amended theorem applied to the failing alias run. -/
theorem C3_witness :
    ((∀ q : Path, q ≠ SourceStagingDir → q ≠ stagedPath demoSourceLegacy →
        FS.find (Fetch dh256 dh1 demoEnvOk demoSourceLegacy demoWorldAlias).2.fs q =
          FS.find demoWorldAlias.fs q) ∧
     (FS.find (Fetch dh256 dh1 demoEnvOk demoSourceLegacy demoWorldAlias).2.fs
        (stagedPath demoSourceLegacy) =
          FS.find demoWorldAlias.fs (stagedPath demoSourceLegacy) ∨
      ∃ bts, FS.find (Fetch dh256 dh1 demoEnvOk demoSourceLegacy demoWorldAlias).2.fs
        (stagedPath demoSourceLegacy) = some (FSEntry.file bts))) ∨
    (symlinkExists = symlinkExists ∧ demoSourceLegacy.legacy = true ∧
     ∃ b, FS.find (Fetch dh256 dh1 demoEnvOk demoSourceLegacy demoWorldAlias).2.fs
       (GetPath demoSourceLegacy (dh256 b)) = some (FSEntry.file b)) :=
  C3_failure_atomicity dh256 dh1 demoEnvOk demoSourceLegacy demoWorldAlias
    symlinkExists rfl

/-! ### C5 -/

/-- C5: legacy aliasing: after a successful `Fetch` of a legacy-format
source, a symbolic link sits at `<root>/<weakHash>` (SHA-1 of the
committed bytes), stores the canonical directory name as its target, and
resolves to the canonical directory `<root>/<strongHash>`. -/
theorem C5_legacy_alias (c256 c1 : List Nat → String) (env : FetchEnv)
    (s : SimpleSource) (w : World)
    (hleg : s.legacy = true)
    (hok : (Fetch c256 c1 env s w).1 = Except.ok ()) :
    ∃ b, FS.find (Fetch c256 c1 env s w).2.fs (GetPath s (c256 b)) =
        some (FSEntry.file b) ∧
      FS.find (Fetch c256 c1 env s w).2.fs (canonDir (c1 b)) =
        some (FSEntry.symlink (c256 b)) ∧
      resolveAlias (Fetch c256 c1 env s w).2.fs (canonDir (c1 b)) =
        some (canonDir (c256 b)) := by
  rcases Fetch_char c256 c1 env s w with ⟨evs, _, _, hcase⟩
  rcases hcase with ⟨e, herr, _⟩ | ⟨b, _, hcanon, _, hend⟩
  · rw [hok] at herr; simp at herr
  · rcases hend with ⟨_, halias⟩ | ⟨herr, _, _⟩
    · have h := (halias hleg).1
      refine ⟨b, hcanon, h, ?_⟩
      unfold resolveAlias
      rw [h]
      rfl
    · rw [hok] at herr; simp at herr

/-- C5 witness: a concrete successful legacy fetch, with the alias link
in place and resolving to the canonical directory. -/
theorem C5_witness :
    ∃ b, FS.find (Fetch dh256 dh1 demoEnvOk demoSourceLegacy demoWorld).2.fs
        (GetPath demoSourceLegacy (dh256 b)) = some (FSEntry.file b) ∧
      FS.find (Fetch dh256 dh1 demoEnvOk demoSourceLegacy demoWorld).2.fs
        (canonDir (dh1 b)) = some (FSEntry.symlink (dh256 b)) ∧
      resolveAlias (Fetch dh256 dh1 demoEnvOk demoSourceLegacy demoWorld).2.fs
        (canonDir (dh1 b)) = some (canonDir (dh256 b)) :=
  C5_legacy_alias dh256 dh1 demoEnvOk demoSourceLegacy demoWorld rfl rfl

/-! ### C6 -/

/-- A second legacy source, used for the alias-collision scenario. -/
def demoSourceLegacy2 : SimpleSource :=
  { URI := "http://y/h2", File := "h2", legacy := true, validator := "v",
    url := ⟨"http", "y", none, "/h2"⟩ }

/-- A world whose alias path `root/<dh1 [7]>` already holds a symlink with
the SAME target as the one this fetch would create. -/
def demoWorldAliasSame : World := ⟨[(["root", "w8"], FSEntry.symlink "s8")], []⟩

/-- C6 counterexample: the entry already present at the secondary-hash
path targets the SAME canonical directory, yet the fetch still fails with
the symlink-exists error — refuting "an already-present
identically-targeted alias is not treated as this collision error". -/
theorem C6_counterexample :
    FS.find demoWorldAliasSame.fs (canonDir (dh1 [7])) =
      some (FSEntry.symlink (dh256 [7])) ∧
    (Fetch dh256 dh1 demoEnvOk demoSourceLegacy2 demoWorldAliasSame).1 =
      Except.error symlinkExists :=
  ⟨rfl, rfl⟩

/-- C6 (amended): creating the legacy alias fails with the symlink
already-exists error whenever ANY entry occupies the secondary-hash path
— identically targeted or not — and the existing entry is never
overwritten. -/
theorem C6_alias_collision (c256 c1 : List Nat → String) (env : FetchEnv)
    (s : SimpleSource) (w : World) (b : List Nat)
    (hleg : s.legacy = true)
    (hscheme : s.url.scheme ≠ "ftp")
    (hcurl : env.curlOutcome s.URI = CurlOutcome.ok b)
    (hdistinct : c1 b ≠ c256 b)
    (hoccupied : pathExists w.fs (canonDir (c1 b)) = true) :
    (Fetch c256 c1 env s w).1 = Except.error symlinkExists ∧
    FS.find (Fetch c256 c1 env s w).2.fs (canonDir (c1 b)) =
      FS.find w.fs (canonDir (c1 b)) := by
  rcases Fetch_char c256 c1 env s w with ⟨evs, _, _, hcase⟩
  rcases hcase with ⟨e, _, hprov, _, _⟩ | ⟨b', hprov, hcanon, _, hend⟩
  · rcases hprov with h | ⟨lo, h⟩
    · exact absurd h hscheme
    · rw [hcurl] at h; simp at h
  · have hb : b' = b := by
      rcases hprov with h | h
      · exact absurd h hscheme
      · rw [hcurl] at h; injection h with h'; exact h'.symm
    subst hb
    rcases hend with ⟨_, halias⟩ | ⟨herr, _, hkeep⟩
    · have hnone := (halias hleg).2 hdistinct
      unfold pathExists at hoccupied
      rw [hnone] at hoccupied
      simp at hoccupied
    · exact ⟨herr, hkeep hdistinct⟩

/-- C6 witness: the amended theorem applied to the identically-targeted
occupied alias path. -/
theorem C6_witness :
    (Fetch dh256 dh1 demoEnvOk demoSourceLegacy2 demoWorldAliasSame).1 =
      Except.error symlinkExists ∧
    FS.find (Fetch dh256 dh1 demoEnvOk demoSourceLegacy2 demoWorldAliasSame).2.fs
      (canonDir (dh1 [7])) = FS.find demoWorldAliasSame.fs (canonDir (dh1 [7])) :=
  C6_alias_collision dh256 dh1 demoEnvOk demoSourceLegacy2 demoWorldAliasSame [7]
    rfl (by decide) rfl (by decide) rfl

/-! ### C4 -/

/-- C4: FTP ambiguity: when dial and login succeed and the directory
listing of the requested path returns any number of entries other than
one, the FTP backend returns the `AmbiguousRemoteFile` error, the
filesystem is completely untouched (in particular nothing is written to
the destination), and the event trace ends at the listing — the body is
never retrieved. -/
theorem C4_ftp_ambiguity (env : FetchEnv) (s : SimpleSource) (dest : Path)
    (w : World) (entries : List Nat)
    (hdial : env.ftp.dialOk (hostWithPort s.url.host) = true)
    (hlogin : env.ftp.loginOk (ftpCredentials s.url.user).1
      (ftpCredentials s.url.user).2 = true)
    (hlist : env.ftp.listResult s.url.path = Except.ok entries)
    (hn : entries.length ≠ 1) :
    downloadFTP env s dest w =
      (Except.error (ambiguousRemoteFile entries.length),
       ⟨w.fs, w.events ++ [Ev.ftpDial (hostWithPort s.url.host),
                           Ev.ftpLogin (ftpCredentials s.url.user).1
                             (ftpCredentials s.url.user).2,
                           Ev.ftpList s.url.path]⟩) := by
  unfold downloadFTP
  rw [if_pos hdial, if_pos hlogin, hlist]
  simp only [hn, if_true]
  simp [hn]

/-- An FTP environment whose listing of any path reports two entries. -/
def demoEnvFTPAmbig : FetchEnv :=
  ⟨fun _ => CurlOutcome.fail [],
   ⟨fun _ => true, fun _ _ => true, fun _ => Except.ok [100, 200],
    fun _ => Except.error "never"⟩⟩

/-- An anonymous FTP source. -/
def demoSourceFTP : SimpleSource :=
  { URI := "ftp://mirror.example/pub/bar.tar.gz", File := "bar.tar.gz",
    legacy := false, validator := "v",
    url := ⟨"ftp", "mirror.example", none, "/pub/bar.tar.gz"⟩ }

/-- C4 witness: a concrete two-entry listing yields the ambiguity error,
an unchanged filesystem, and no retrieval event. -/
theorem C4_witness :
    downloadFTP demoEnvFTPAmbig demoSourceFTP (stagedPath demoSourceFTP) ⟨[], []⟩ =
      (Except.error (ambiguousRemoteFile 2),
       ⟨[], [Ev.ftpDial "mirror.example:21", Ev.ftpLogin "anonymous" "anonymous",
             Ev.ftpList "/pub/bar.tar.gz"]⟩) :=
  C4_ftp_ambiguity demoEnvFTPAmbig demoSourceFTP (stagedPath demoSourceFTP) ⟨[], []⟩
    [100, 200] rfl rfl rfl (by decide)

/-! ### C8 -/

/-- C8: dispatch totality: backend selection is a total function of the
scheme; the scheme `"ftp"`, and only that scheme, routes to the FTP
backend, and every other scheme — unknown or absent (empty) included —
routes to the generic curl backend. -/
theorem C8_dispatch_total (scheme : String) :
    (selectBackend scheme = Backend.ftp ↔ scheme = "ftp") ∧
    (selectBackend scheme = Backend.curl ↔ scheme ≠ "ftp") := by
  unfold selectBackend
  by_cases h : scheme = "ftp" <;> simp [h]

/-! ### C9 -/

/-- A port-less bracketed-IPv6 FTP source. -/
def demoSourceV6 : SimpleSource :=
  { URI := "ftp://[::1]/f", File := "f", legacy := false, validator := "v",
    url := ⟨"ftp", "[::1]", none, "/f"⟩ }

/-- An FTP environment that refuses every dial. -/
def demoEnvFTPDead : FetchEnv := ⟨fun _ => CurlOutcome.fail [], demoFTPDead⟩

/-- C9 counterexample: the bracketed IPv6 host `[::1]` specifies no port,
yet — because the code only tests for a colon anywhere in the host — the
backend dials `[::1]` unchanged rather than port 21. -/
theorem C9_counterexample :
    hostSpecifiesPort "[::1]" = false ∧
    hostWithPort "[::1]" = "[::1]" ∧
    (downloadFTP demoEnvFTPDead demoSourceV6 (stagedPath demoSourceV6) ⟨[], []⟩).2.events =
      [Ev.ftpDial "[::1]"] ∧
    "[::1]" ≠ "[::1]" ++ ":21" :=
  ⟨rfl, rfl, rfl, by decide⟩

/-- C9 (amended): when the host contains no colon — in particular every
non-bracketed host that specifies no port — `":21"` is appended before
dialing; a host that does contain a colon (which includes every bracketed
IPv6 host, even port-less ones) is dialed unchanged; absent userinfo
yields the `anonymous`/`anonymous` credentials, and a username without a
password is used with the empty-string password. -/
theorem C9_ftp_parameters (host name pwd : String) :
    (hostSpecifiesPort host = false → host.toList.head? ≠ some '[' →
      hostWithPort host = host ++ ":21") ∧
    (host.toList.contains ':' = true → hostWithPort host = host) ∧
    (ftpCredentials none = ("anonymous", "anonymous")) ∧
    (ftpCredentials (some ⟨name, none⟩) = (name, "")) ∧
    (ftpCredentials (some ⟨name, some pwd⟩) = (name, pwd)) := by
  refine ⟨?_, ?_, rfl, rfl, rfl⟩
  · intro hsp hb
    unfold hostSpecifiesPort at hsp
    rw [if_neg hb] at hsp
    unfold hostWithPort
    rw [hsp]
    simp
  · intro hcol
    unfold hostWithPort
    rw [hcol]
    simp

/-- C9 witness: the amended theorem applied to a plain port-less host and
to the demo credentials. -/
theorem C9_witness :
    hostWithPort "mirror.example" = "mirror.example" ++ ":21" ∧
    hostWithPort "[::1]" = "[::1]" ∧
    ftpCredentials none = ("anonymous", "anonymous") ∧
    ftpCredentials (some ⟨"alice", none⟩) = ("alice", "") ∧
    ftpCredentials (some ⟨"alice", some "pw"⟩) = ("alice", "pw") :=
  ⟨(C9_ftp_parameters "mirror.example" "alice" "pw").1 (by decide) (by decide),
   (C9_ftp_parameters "[::1]" "alice" "pw").2.1 (by decide),
   (C9_ftp_parameters "[::1]" "alice" "pw").2.2.1,
   (C9_ftp_parameters "[::1]" "alice" "pw").2.2.2.1,
   (C9_ftp_parameters "[::1]" "alice" "pw").2.2.2.2⟩

/-! ### C7 -/

/-- A parse function agreeing with Go's `net/url.Parse` on the two sample
locators used below. -/
def demoParse : String → Except String URL := fun u =>
  if u = "https://example.org" then
    Except.ok ⟨"https", "example.org", none, ""⟩
  else if u = "https://example.org/pkg/foo-1.2.tar.xz" then
    Except.ok ⟨"https", "example.org", none, "/pkg/foo-1.2.tar.xz"⟩
  else Except.error "unsupported"

/-- The descriptor produced for `https://example.org` (empty path). -/
def demoS7 : SimpleSource :=
  { URI := "https://example.org", File := ".", legacy := false, validator := "v",
    url := ⟨"https", "example.org", none, ""⟩ }

/-- C7 counterexample: for the valid URI `https://example.org` (empty path
component) construction succeeds with `fileName = "."` — the
`filepath.Base` fallback — while the final path segment is the empty
string, so `fileName` does NOT equal the final path segment. -/
theorem C7_counterexample :
    NewSimple demoParse "https://example.org" "v" false = Except.ok demoS7 ∧
    demoS7.File = "." ∧
    finalSeg demoS7.url.path = "" ∧
    demoS7.File ≠ finalSeg demoS7.url.path :=
  ⟨rfl, rfl, rfl, by decide⟩

/-- C7 (amended): construction fails exactly when the locator cannot be
parsed; on success `fileName` is `filepath.Base` of the path — equal to
the final path segment whenever the path is nonempty and does not end in
a slash, and `"."` / `"/"` fallbacks otherwise — and `fileName` is never
the empty string. -/
theorem C7_descriptor_construction (parseURL : String → Except String URL)
    (uri validator : String) (legacy : Bool) :
    ((∃ e, NewSimple parseURL uri validator legacy = Except.error e) ↔
      (∃ e, parseURL uri = Except.error e)) ∧
    (∀ s, NewSimple parseURL uri validator legacy = Except.ok s →
      s.File = filepathBase s.url.path ∧
      s.File ≠ "" ∧
      (s.url.path ≠ "" → s.url.path.toList.reverse.head? ≠ some '/' →
        s.File = finalSeg s.url.path)) := by
  constructor
  · cases hp : parseURL uri with
    | error e => simp [NewSimple, hp]
    | ok u => simp [NewSimple, hp]
  · intro s hs
    cases hp : parseURL uri with
    | error e => unfold NewSimple at hs; rw [hp] at hs; simp at hs
    | ok u =>
      unfold NewSimple at hs
      rw [hp] at hs
      injection hs with hs'
      subst hs'
      refine ⟨rfl, filepathBase_ne_empty _, ?_⟩
      intro h1 h2
      exact filepathBase_eq_finalSeg u.path h1 h2

/-- The descriptor produced for the normal sample URI. -/
def demoS7ok : SimpleSource :=
  { URI := "https://example.org/pkg/foo-1.2.tar.xz", File := "foo-1.2.tar.xz",
    legacy := false, validator := "v",
    url := ⟨"https", "example.org", none, "/pkg/foo-1.2.tar.xz"⟩ }

/-- C7 witness: the amended theorem applied to the normal sample URI,
whose `fileName` equals the final path segment and is nonempty. -/
theorem C7_witness :
    NewSimple demoParse "https://example.org/pkg/foo-1.2.tar.xz" "v" false =
      Except.ok demoS7ok ∧
    demoS7ok.File ≠ "" ∧
    demoS7ok.File = finalSeg demoS7ok.url.path := by
  refine ⟨rfl, ?_, ?_⟩
  · exact ((C7_descriptor_construction demoParse
      "https://example.org/pkg/foo-1.2.tar.xz" "v" false).2 demoS7ok rfl).2.1
  · exact ((C7_descriptor_construction demoParse
      "https://example.org/pkg/foo-1.2.tar.xz" "v" false).2 demoS7ok rfl).2.2
      (by decide) (by decide)

/-! ### C10 -/

/-- C10: `Fetch` never validates: it commits under the computed hash
without comparing it to the descriptor's validator.  Whenever the
downloaded bytes hash to a value different from the validator (and the
validator entry was absent beforehand), `Fetch` reports success while
`IsFetched` afterwards is still `false`, the validator's canonical path
holds nothing, and `GetBindConfiguration`'s bind source names exactly
that unpopulated validator path. -/
theorem C10_no_validation (c256 c1 : List Nat → String) (env : FetchEnv)
    (s : SimpleSource) (w : World) (rootfs : Path) (b : List Nat)
    (hscheme : s.url.scheme ≠ "ftp")
    (hcurl : env.curlOutcome s.URI = CurlOutcome.ok b)
    (hleg : s.legacy = false)
    (hmismatch : c256 b ≠ s.validator)
    (hnot : IsFetched s w.fs = false) :
    (Fetch c256 c1 env s w).1 = Except.ok () ∧
    IsFetched s (Fetch c256 c1 env s w).2.fs = false ∧
    FS.find (Fetch c256 c1 env s w).2.fs (GetPath s s.validator) = none ∧
    (GetBindConfiguration s rootfs).BindSource = GetPath s s.validator := by
  have hfindnone : FS.find w.fs (GetPath s s.validator) = none := by
    unfold IsFetched pathExists at hnot
    cases hf : FS.find w.fs (GetPath s s.validator) with
    | none => rfl
    | some x => rw [hf] at hnot; simp at hnot
  rcases Fetch_char c256 c1 env s w with ⟨evs, _, _, hcase⟩
  rcases hcase with ⟨e, _, hprov, _, _⟩ | ⟨b', hprov, hcanon, huntouched, hend⟩
  · rcases hprov with h | ⟨lo, h⟩
    · exact absurd h hscheme
    · rw [hcurl] at h; simp at h
  · have hb : b' = b := by
      rcases hprov with h | h
      · exact absurd h hscheme
      · rw [hcurl] at h; injection h with h'; exact h'.symm
    subst hb
    have hvalid : FS.find (Fetch c256 c1 env s w).2.fs (GetPath s s.validator) = none := by
      rw [huntouched (GetPath s s.validator) (getPath_ne_stg s _)
        (Ne.symm (stagedPath_ne_getPath s s _))
        (getPath_ne_canonDir s _ _)
        (by rw [Ne, getPath_inj]; exact fun h => hmismatch h.symm)
        (getPath_ne_canonDir s _ _)]
      exact hfindnone
    rcases hend with ⟨hok, _⟩ | ⟨_, hleg', _⟩
    · refine ⟨hok, ?_, hvalid, rfl⟩
      unfold IsFetched pathExists
      rw [hvalid]
      rfl
    · rw [hleg'] at hleg; simp at hleg

/-- C10 witness: a concrete run whose downloaded bytes hash to a value
different from the validator `"v"` succeeds and leaves the validator path
empty. -/
theorem C10_witness :
    (Fetch dh256 dh1 demoEnvOk demoSource demoWorld).1 = Except.ok () ∧
    IsFetched demoSource (Fetch dh256 dh1 demoEnvOk demoSource demoWorld).2.fs = false ∧
    FS.find (Fetch dh256 dh1 demoEnvOk demoSource demoWorld).2.fs
      (GetPath demoSource demoSource.validator) = none ∧
    (GetBindConfiguration demoSource ["rootfs"]).BindSource =
      GetPath demoSource demoSource.validator :=
  C10_no_validation dh256 dh1 demoEnvOk demoSource demoWorld ["rootfs"] [7]
    (by decide) rfl rfl (by decide) rfl

end Solbuild
